import Mathlib

/-!
Shallow embedding of the geometry core of the `mirth` ray tracer:
`src/utility/linalg.rs` (vectors, rays, matrices) and `src/shapes/mod.rs`
(the intersection record).

The scalar type `Float` (an alias defined in `config.rs` for a machine
float) is modelled as an extended real (`EReal`, which carries the two
infinities the code stores via `Float::INFINITY`) together with a NaN
element.  The arithmetic follows the IEEE rules at the special values:
`∞ - ∞`, `0 * ±∞`, `∞ / ∞` and the square root of a negative number are
NaN; NaN propagates through every arithmetic operation; every ordered
comparison against NaN is false; `1/±∞ = 0` and `x/0 = ±∞` for finite
non-zero `x`.  Idealized away: rounding (finite arithmetic is exact real
arithmetic), signed zero, and NaN payloads (a single NaN value).
-/

namespace Mirth

noncomputable section

/-- The scalar type `Float` from `config.rs`: an extended real or NaN. -/
inductive Float where
  | nan : Float
  | val (x : EReal) : Float

/-- Ordered comparison: `a < b` on numeric values, false whenever either
side is NaN (IEEE comparisons with NaN are false). -/
def flt : Float → Float → Prop
  | .val a, .val b => a < b
  | _, _ => False

/-- Addition: NaN propagates, opposite infinities give NaN, otherwise
extended-real addition. -/
def fadd : Float → Float → Float
  | .nan, _ => .nan
  | _, .nan => .nan
  | .val a, .val b =>
      if (a = ⊤ ∧ b = ⊥) ∨ (a = ⊥ ∧ b = ⊤) then .nan else .val (a + b)

/-- Negation: NaN propagates, otherwise extended-real negation. -/
def fneg : Float → Float
  | .nan => .nan
  | .val a => .val (-a)

/-- Subtraction, as addition of the negation (exactly the IEEE behavior:
`∞ - ∞` is NaN through the opposite-infinities rule of `fadd`). -/
def fsub (a b : Float) : Float := fadd a (fneg b)

/-- Multiplication: NaN propagates, zero times an infinity is NaN,
otherwise extended-real multiplication (which is sign-correct on
infinities). -/
def fmul : Float → Float → Float
  | .nan, _ => .nan
  | _, .nan => .nan
  | .val a, .val b =>
      if (a = 0 ∧ (b = ⊤ ∨ b = ⊥)) ∨ (b = 0 ∧ (a = ⊤ ∨ a = ⊥)) then .nan
      else .val (a * b)

instance : LT Float := ⟨flt⟩

instance : Add Float := ⟨fadd⟩

instance : Neg Float := ⟨fneg⟩

instance : Sub Float := ⟨fsub⟩

instance : Mul Float := ⟨fmul⟩

instance : Zero Float := ⟨Float.val 0⟩

instance : One Float := ⟨Float.val 1⟩

/-- `⊤` is `Float::INFINITY`. -/
instance : Top Float := ⟨Float.val ⊤⟩

/-- The embedding of a finite real number into the scalar model. -/
def Float.ofReal (a : ℝ) : Float := Float.val ((a : ℝ) : EReal)

/-- Modelled from the spec: `FLOAT_ERR` is defined in `config.rs`, which is
not among the sources; the spec calls it "a small positive epsilon".  A
representative concrete value is chosen; the claims rely only on it being
small and strictly positive. -/
def FLOAT_ERR : Float := Float.ofReal (1 / 10000)

/-- Absolute value: NaN propagates (IEEE `abs(NaN)` is NaN). -/
def fabs : Float → Float
  | .nan => .nan
  | .val a => .val (if a < 0 then -a else a)

/-- Modelled from the spec: `SignCheckable::is_zero` comes from `config.rs`,
which is not among the sources; the spec describes vector equality as
"component-wise closeness within a fixed epsilon, not bit equality", so
`is_zero x` holds when `|x| < FLOAT_ERR` (false at NaN, whose comparisons
are all false). -/
def is_zero (x : Float) : Prop := fabs x < FLOAT_ERR

/-- Square root: NaN propagates, `sqrt ∞ = ∞`, the square root of a
negative value is NaN, otherwise the real square root. -/
def fsqrt : Float → Float
  | .nan => .nan
  | .val a =>
      if a = ⊤ then .val ⊤
      else if a < 0 then .nan
      else .val ((Real.sqrt a.toReal : ℝ) : EReal)

/-- Reciprocal: NaN propagates, the reciprocal of an infinity is `0`, the
reciprocal of `0` is `∞`, otherwise the real reciprocal. -/
def finv : Float → Float
  | .nan => .nan
  | .val a =>
      if a = ⊤ ∨ a = ⊥ then .val 0
      else if a = 0 then .val ⊤
      else .val ((a.toReal⁻¹ : ℝ) : EReal)

/-- Division, as multiplication by the reciprocal; this reproduces the IEEE
special cases (`∞/∞` and `0/0` are NaN through `0 * ∞`, a finite value over
an infinity is `0`) and is exact real division on finite non-zero
divisors. -/
def fdiv (a b : Float) : Float := a * finv b

/-- `Vec3` from `linalg.rs`: three `Float` components.  The `cgmath::Vector3`
wrapped inside is flattened into the structure; `x`, `y`, `z` are the
coordinate accessors. -/
structure Vec3 where
  x : Float
  y : Float
  z : Float

/-- `Vec3::new`: create a new vector with the specified coordinates. -/
def Vec3.new (x y z : Float) : Vec3 := ⟨x, y, z⟩

/-- `Point3` is a type alias of `Vec3`. -/
abbrev Point3 := Vec3

/-- `Point3::origin`: the point `(0, 0, 0)`. -/
def Point3.origin : Point3 := Vec3.new 0 0 0

/-- `Vec3::set_x`: change the x coordinate to the specified value
(the `&mut self` mutation becomes explicit state passing). -/
def Vec3.set_x (v : Vec3) (c : Float) : Vec3 := { v with x := c }

/-- `Vec3::set_y`: change the y coordinate to the specified value. -/
def Vec3.set_y (v : Vec3) (c : Float) : Vec3 := { v with y := c }

/-- `Vec3::set_z`: change the z coordinate to the specified value. -/
def Vec3.set_z (v : Vec3) (c : Float) : Vec3 := { v with z := c }

/-- The free function `dot` (via `cgmath::dot`): component-wise products,
summed. -/
def dot (v1 v2 : Vec3) : Float := v1.x * v2.x + v1.y * v2.y + v1.z * v2.z

/-- `cgmath::InnerSpace::magnitude2`: `dot(self, self)`. -/
def Vec3.magnitude2 (v : Vec3) : Float := dot v v

/-- `cgmath::InnerSpace::magnitude`: `sqrt(magnitude2)`. -/
def Vec3.magnitude (v : Vec3) : Float := fsqrt v.magnitude2

/-- The `cgmath` vector-times-scalar product (`Vector3 * S`),
component-wise on the right. -/
def Vec3.mul_scalar (v : Vec3) (s : Float) : Vec3 :=
  Vec3.new (v.x * s) (v.y * s) (v.z * s)

/-- `cgmath::InnerSpace::normalize_to`, called by `Vec3::normalize_to`:
`self * (magnitude / self.magnitude())`. -/
def Vec3.normalize_to (v : Vec3) (magnitude : Float) : Vec3 :=
  v.mul_scalar (fdiv magnitude v.magnitude)

/-- `Vec3::normalize`, via `cgmath::InnerSpace::normalize`:
`normalize_to(1)`. -/
def Vec3.normalize (v : Vec3) : Vec3 := v.normalize_to 1

/-- `Vec3::are_equal`: each component difference is zero within the epsilon
tolerance. -/
def Vec3.are_equal (v1 v2 : Vec3) : Prop :=
  is_zero (v1.x - v2.x) ∧ is_zero (v1.y - v2.y) ∧ is_zero (v1.z - v2.z)

/-- The manual `Default` impl for `Vec3`: `(0, 0, 0)`. -/
def Vec3.default : Vec3 := Vec3.new 0 0 0

/-- The `+` operator overloads for `Vec3` (all four ownership variants of
by-value and by-reference operands compute the same component-wise sum). -/
def Vec3.add (a b : Vec3) : Vec3 := Vec3.new (a.x + b.x) (a.y + b.y) (a.z + b.z)

/-- The `-` operator overloads for `Vec3` (all four ownership variants). -/
def Vec3.sub (a b : Vec3) : Vec3 := Vec3.new (a.x - b.x) (a.y - b.y) (a.z - b.z)

/-- The `Float * Vec3` operator overload: scalar-left multiplication. -/
def smul (s : Float) (v : Vec3) : Vec3 := Vec3.new (s * v.x) (s * v.y) (s * v.z)

/-- `Ray3` from `linalg.rs`: origin, direction, and the parametric bounds
`min_t`, `max_t`. -/
structure Ray3 where
  origin : Point3
  direction : Vec3
  min_t : Float
  max_t : Float

/-- `Ray3::new`: the given origin and direction, `min_t = FLOAT_ERR`,
`max_t = Float::INFINITY`. -/
def Ray3.new (origin : Point3) (direction : Vec3) : Ray3 :=
  ⟨origin, direction, FLOAT_ERR, ⊤⟩

/-- The derived `Default` impl for `Ray3`: every field takes its default,
so origin and direction are `Vec3`'s default `(0,0,0)` and both bounds are
the `Float` default `0.0`. -/
def Ray3.default : Ray3 := ⟨Vec3.default, Vec3.default, 0, 0⟩

/-- `Ray3::is_in_range`: `(min_t < t) && (t < max_t)`. -/
def Ray3.is_in_range (r : Ray3) (t : Float) : Prop :=
  r.min_t < t ∧ t < r.max_t

/-- `Ray3::eval`: `&self.origin + t * &self.direction`. -/
def Ray3.eval (r : Ray3) (t : Float) : Point3 :=
  Vec3.add r.origin (smul t r.direction)

/-- A 4-component vector as in `cgmath::Vector4`, used by the matrix model. -/
structure Vec4 where
  x : Float
  y : Float
  z : Float
  w : Float

/-- `Matrix4` from `linalg.rs`, wrapping `cgmath::Matrix4`: column-major,
the four fields are the columns; `w` is the translation column of an
affine transform. -/
structure Matrix4 where
  x : Vec4
  y : Vec4
  z : Vec4
  w : Vec4

/-- The `cgmath` matrix-times-vector product `Matrix4 * Vector4`
(column-major): entry `r` of the result is
`m[0][r]*v.x + m[1][r]*v.y + m[2][r]*v.z + m[3][r]*v.w`. -/
def Matrix4.mulVec (m : Matrix4) (v : Vec4) : Vec4 :=
  ⟨m.x.x * v.x + m.y.x * v.y + m.z.x * v.z + m.w.x * v.w,
   m.x.y * v.x + m.y.y * v.y + m.z.y * v.z + m.w.y * v.w,
   m.x.z * v.x + m.y.z * v.y + m.z.z * v.z + m.w.z * v.w,
   m.x.w * v.x + m.y.w * v.y + m.z.w * v.z + m.w.w * v.w⟩

/-- `Matrix4::transform_vector`, via `cgmath::Transform::transform_vector`
for `Matrix4`: extend the vector with homogeneous coordinate `w = 0`,
multiply by the matrix, truncate back to three components. -/
def Matrix4.transform_vector (m : Matrix4) (v : Vec3) : Vec3 :=
  let xformed := m.mulVec ⟨v.x, v.y, v.z, 0⟩
  Vec3.new xformed.x xformed.y xformed.z

/-- `IntersectionInfo` from `shapes/mod.rs`. -/
structure IntersectionInfo where
  did_hit : Bool
  point : Point3
  t : Float

/-- The `Default` impl for `IntersectionInfo`: `did_hit = false`, `point`
at `Point3::default()`, `t = Float::INFINITY`. -/
def IntersectionInfo.default : IntersectionInfo :=
  ⟨false, Vec3.default, ⊤⟩

/-- `IntersectionInfo::no_intersection`:
`Self { did_hit: false, ..Default::default() }`. -/
def IntersectionInfo.no_intersection : IntersectionInfo :=
  { IntersectionInfo.default with did_hit := false }

/-- No float is less than itself (true at NaN as well). -/
lemma flt_irrefl : ∀ x : Float, ¬ x < x
  | .nan => fun h => h
  | .val a => fun h => lt_irrefl a h

/-- Ordered comparison of embedded reals is the real comparison. -/
lemma ofReal_lt_ofReal {a b : ℝ} : Float.ofReal a < Float.ofReal b ↔ a < b :=
  EReal.coe_lt_coe_iff

/-- The embedding of `0`. -/
lemma ofReal_zero : Float.ofReal 0 = 0 := rfl

/-- The embedding of `1`. -/
lemma ofReal_one : Float.ofReal 1 = 1 := rfl

/-- Addition of embedded reals is exact. -/
lemma ofReal_add (a b : ℝ) :
    Float.ofReal a + Float.ofReal b = Float.ofReal (a + b) := by
  show fadd (Float.val a) (Float.val b) = Float.val ((a + b : ℝ) : EReal)
  simp only [fadd]
  rw [if_neg, ← EReal.coe_add]
  rintro (⟨h, -⟩ | ⟨h, -⟩)
  · exact EReal.coe_ne_top a h
  · exact EReal.coe_ne_bot a h

/-- Negation of an embedded real is exact. -/
lemma ofReal_neg (a : ℝ) : -(Float.ofReal a) = Float.ofReal (-a) := by
  show Float.val (-((a : ℝ) : EReal)) = Float.val ((-a : ℝ) : EReal)
  rw [EReal.coe_neg]

/-- Subtraction of embedded reals is exact. -/
lemma ofReal_sub (a b : ℝ) :
    Float.ofReal a - Float.ofReal b = Float.ofReal (a - b) := by
  show fadd (Float.ofReal a) (fneg (Float.ofReal b)) = Float.ofReal (a - b)
  rw [show fneg (Float.ofReal b) = Float.ofReal (-b) from ofReal_neg b]
  rw [show fadd (Float.ofReal a) (Float.ofReal (-b))
      = Float.ofReal a + Float.ofReal (-b) from rfl]
  rw [ofReal_add, sub_eq_add_neg]

/-- Multiplication of embedded reals is exact. -/
lemma ofReal_mul (a b : ℝ) :
    Float.ofReal a * Float.ofReal b = Float.ofReal (a * b) := by
  show fmul (Float.val a) (Float.val b) = Float.val ((a * b : ℝ) : EReal)
  simp only [fmul]
  rw [if_neg, ← EReal.coe_mul]
  rintro (⟨-, h | h⟩ | ⟨-, h | h⟩)
  · exact EReal.coe_ne_top b h
  · exact EReal.coe_ne_bot b h
  · exact EReal.coe_ne_top a h
  · exact EReal.coe_ne_bot a h

/-- Adding zero is the identity, for every float (NaN included). -/
lemma fadd_zero : ∀ s : Float, s + 0 = s
  | .nan => rfl
  | .val a => by
      show fadd (Float.val a) (Float.val 0) = Float.val a
      simp only [fadd]
      rw [if_neg, add_zero]
      rintro (⟨-, h⟩ | ⟨-, h⟩)
      · exact EReal.zero_ne_bot h
      · exact EReal.zero_ne_top h

/-- NaN absorbs addition on the left. -/
lemma nan_fadd : ∀ s : Float, Float.nan + s = Float.nan
  | .nan => rfl
  | .val _ => rfl

/-- NaN absorbs addition on the right. -/
lemma fadd_nan : ∀ s : Float, s + Float.nan = Float.nan
  | .nan => rfl
  | .val _ => rfl

/-- NaN absorbs multiplication on the left. -/
lemma nan_fmul : ∀ s : Float, Float.nan * s = Float.nan
  | .nan => rfl
  | .val _ => rfl

/-- NaN absorbs subtraction on the left. -/
lemma nan_fsub : ∀ s : Float, Float.nan - s = Float.nan
  | .nan => rfl
  | .val _ => rfl

/-- Addition of two numeric values hitting the opposite-infinities rule
is NaN. -/
lemma val_fadd_val_nan (a b : EReal)
    (h : (a = ⊤ ∧ b = ⊥) ∨ (a = ⊥ ∧ b = ⊤)) :
    Float.val a + Float.val b = Float.nan := by
  show fadd (Float.val a) (Float.val b) = Float.nan
  simp only [fadd]
  rw [if_pos h]

/-- Multiplication of two numeric values hitting the zero-times-infinity
rule is NaN. -/
lemma val_fmul_val_nan (a b : EReal)
    (h : (a = 0 ∧ (b = ⊤ ∨ b = ⊥)) ∨ (b = 0 ∧ (a = ⊤ ∨ a = ⊥))) :
    Float.val a * Float.val b = Float.nan := by
  show fmul (Float.val a) (Float.val b) = Float.nan
  simp only [fmul]
  rw [if_pos h]

/-- Zero times zero is zero. -/
lemma zero_fmul_zero : (0 : Float) * 0 = 0 := by
  rw [← ofReal_zero, ofReal_mul, mul_zero]

/-- Zero times an embedded real is zero. -/
lemma zero_fmul_ofReal (a : ℝ) : (0 : Float) * Float.ofReal a = 0 := by
  rw [← ofReal_zero, ofReal_mul, zero_mul]

/-- An embedded real times zero is zero. -/
lemma ofReal_fmul_zero (a : ℝ) : Float.ofReal a * 0 = 0 := by
  rw [← ofReal_zero, ofReal_mul, mul_zero]

/-- Zero times the infinity is NaN, as in IEEE arithmetic. -/
lemma zero_fmul_top : (0 : Float) * ⊤ = Float.nan :=
  val_fmul_val_nan 0 ⊤ (Or.inl ⟨rfl, Or.inl rfl⟩)

/-- The infinity times zero is NaN, as in IEEE arithmetic. -/
lemma top_fmul_zero : (⊤ : Float) * 0 = Float.nan :=
  val_fmul_val_nan ⊤ 0 (Or.inr ⟨rfl, Or.inl rfl⟩)

/-- The infinity times itself is the infinity. -/
lemma top_fmul_top : (⊤ : Float) * ⊤ = ⊤ := by
  show fmul (Float.val ⊤) (Float.val ⊤) = Float.val ⊤
  simp only [fmul]
  rw [if_neg, EReal.top_mul_top]
  rintro (⟨h, -⟩ | ⟨h, -⟩) <;> exact EReal.top_ne_zero h

/-- The infinity minus itself is NaN, as in IEEE arithmetic. -/
lemma top_fsub_top : (⊤ : Float) - ⊤ = Float.nan := by
  show Float.val ⊤ + Float.val (-⊤) = Float.nan
  rw [EReal.neg_top]
  exact val_fadd_val_nan ⊤ ⊥ (Or.inl ⟨rfl, rfl⟩)

/-- The infinity is a non-zero float. -/
lemma top_ne_zero_float : (⊤ : Float) ≠ 0 :=
  fun h => EReal.top_ne_zero (Float.val.inj h)

/-- The epsilon tolerance is strictly positive. -/
lemma FLOAT_ERR_pos : (0 : Float) < FLOAT_ERR :=
  EReal.coe_pos.mpr (by norm_num)

/-- A zero difference is within the epsilon tolerance. -/
lemma is_zero_zero : is_zero 0 := by
  show fabs 0 < FLOAT_ERR
  rw [show fabs 0 = 0 from by
    show fabs (Float.val 0) = Float.val 0
    simp only [fabs]
    rw [if_neg (lt_irrefl (0 : EReal))]]
  exact FLOAT_ERR_pos

/-- NaN is never within the epsilon tolerance of zero. -/
lemma not_is_zero_nan : ¬ is_zero Float.nan := fun h => h

/-- The square root of the infinity is the infinity. -/
lemma fsqrt_top : fsqrt ⊤ = ⊤ := by
  show fsqrt (Float.val ⊤) = Float.val ⊤
  simp only [fsqrt]
  rw [if_pos trivial]

/-- On a non-negative embedded real, `fsqrt` is the real square root. -/
lemma fsqrt_ofReal (a : ℝ) (h : 0 ≤ a) :
    fsqrt (Float.ofReal a) = Float.ofReal (Real.sqrt a) := by
  show fsqrt (Float.val a) = Float.ofReal (Real.sqrt a)
  simp only [fsqrt]
  rw [if_neg (EReal.coe_ne_top a),
    if_neg (not_lt.mpr (EReal.coe_nonneg.mpr h)), EReal.toReal_coe]
  rfl

/-- The reciprocal of the infinity is zero, as in IEEE arithmetic. -/
lemma finv_top : finv ⊤ = 0 := by
  show finv (Float.val ⊤) = Float.val 0
  simp only [finv]
  rw [if_pos (Or.inl trivial)]

/-- On a non-zero embedded real, `finv` is the real reciprocal. -/
lemma finv_ofReal (a : ℝ) (h : a ≠ 0) :
    finv (Float.ofReal a) = Float.ofReal a⁻¹ := by
  show finv (Float.val a) = Float.ofReal a⁻¹
  have hc1 : ¬(((a : ℝ) : EReal) = ⊤ ∨ ((a : ℝ) : EReal) = ⊥) := by
    rintro (h0 | h0)
    · exact EReal.coe_ne_top a h0
    · exact EReal.coe_ne_bot a h0
  have hc2 : ¬(((a : ℝ) : EReal) = 0) := fun h0 => h (EReal.coe_eq_zero.mp h0)
  simp only [finv]
  rw [if_neg hc1, if_neg hc2, EReal.toReal_coe]
  rfl

/-- On a vector with finite components, `magnitude2` is the real sum of
squares. -/
lemma magnitude2_ofReal (a b c : ℝ) :
    (Vec3.new (Float.ofReal a) (Float.ofReal b)
      (Float.ofReal c)).magnitude2
      = Float.ofReal (a * a + b * b + c * c) := by
  simp only [Vec3.magnitude2, dot, Vec3.new]
  rw [ofReal_mul, ofReal_mul, ofReal_mul, ofReal_add, ofReal_add]

/-- On a vector with finite components, `magnitude` is the real square root
of the sum of squares. -/
lemma magnitude_ofReal (a b c : ℝ) :
    (Vec3.new (Float.ofReal a) (Float.ofReal b)
      (Float.ofReal c)).magnitude
      = Float.ofReal (Real.sqrt (a * a + b * b + c * c)) := by
  rw [Vec3.magnitude, magnitude2_ofReal,
    fsqrt_ofReal (a * a + b * b + c * c)
      (add_nonneg (add_nonneg (mul_self_nonneg a) (mul_self_nonneg b))
        (mul_self_nonneg c))]

/-- C1: for every ray and parameter, `is_in_range(t)` holds exactly when
`min_t < t < max_t` with both inequalities strict; for a ray with
`min_t = 0.001` and `max_t = 100`, `is_in_range` rejects `0.001`, accepts
`50` and rejects `100`. -/
theorem is_in_range_strict_iff :
    (∀ (r : Ray3) (t : Float), r.is_in_range t ↔ (r.min_t < t ∧ t < r.max_t)) ∧
    (¬ (Ray3.mk (Vec3.new 0 0 0) (Vec3.new 0 0 0) (Float.ofReal 0.001)
        (Float.ofReal 100)).is_in_range (Float.ofReal 0.001)) ∧
    ((Ray3.mk (Vec3.new 0 0 0) (Vec3.new 0 0 0) (Float.ofReal 0.001)
        (Float.ofReal 100)).is_in_range (Float.ofReal 50)) ∧
    (¬ (Ray3.mk (Vec3.new 0 0 0) (Vec3.new 0 0 0) (Float.ofReal 0.001)
        (Float.ofReal 100)).is_in_range (Float.ofReal 100)) := by
  refine ⟨fun r t => Iff.rfl, ?_, ?_, ?_⟩
  · rintro ⟨h, -⟩
    exact absurd (ofReal_lt_ofReal.mp h) (by norm_num)
  · exact ⟨ofReal_lt_ofReal.mpr (by norm_num),
      ofReal_lt_ofReal.mpr (by norm_num)⟩
  · rintro ⟨-, h⟩
    exact absurd (ofReal_lt_ofReal.mp h) (by norm_num)

/-- C2 counterexample: for the ray with `min_t = 1` and `max_t = 2`, the
parameter `t = min_t = 1` is rejected by `is_in_range`, contradicting the
half-open reading `[min_t, max_t)` under which `t = min_t` is accepted. -/
theorem is_in_range_rejects_min_t :
    ¬ (Ray3.mk (Vec3.new 0 0 0) (Vec3.new 0 0 0) (Float.ofReal 1)
        (Float.ofReal 2)).is_in_range (Float.ofReal 1) := by
  rintro ⟨h, -⟩
  exact absurd (ofReal_lt_ofReal.mp h) (lt_irrefl 1)

/-- C2 amended: the valid parametric interval decided by `is_in_range` is the
open interval `(min_t, max_t)`: both `t = min_t` and `t = max_t` are
rejected. -/
theorem is_in_range_open_interval :
    ∀ r : Ray3, ¬ r.is_in_range r.min_t ∧ ¬ r.is_in_range r.max_t :=
  fun r => ⟨fun h => flt_irrefl r.min_t h.1, fun h => flt_irrefl r.max_t h.2⟩

/-- C3 counterexample: for the ray through the origin with direction
`(∞, 0, 0)` (infinity is a legal direction component), `eval(0)` is not the
origin: the x component is `0 * ∞`, which is NaN, not `0`. -/
theorem eval_zero_fails_at_infinite_direction :
    (Ray3.new (Vec3.new 0 0 0) (Vec3.new ⊤ 0 0)).eval 0
      ≠ (Ray3.new (Vec3.new 0 0 0) (Vec3.new ⊤ 0 0)).origin := by
  have h : (Ray3.new (Vec3.new 0 0 0) (Vec3.new ⊤ 0 0)).eval 0
      = Vec3.new Float.nan 0 0 := by
    simp only [Ray3.eval, Ray3.new, Vec3.add, smul, Vec3.new]
    rw [zero_fmul_top, fadd_nan, zero_fmul_zero, fadd_zero]
  intro hcontra
  rw [h] at hcontra
  exact Float.noConfusion (congrArg Vec3.x hcontra)

/-- C3 amended: for every ray and every parameter (no range check),
`eval(t)` is `origin + t * direction` component-wise; and for every ray
whose direction components are finite, `eval(0) = origin`. -/
theorem eval_is_origin_add_scaled_direction :
    (∀ (r : Ray3) (t : Float),
      r.eval t = Vec3.new (r.origin.x + t * r.direction.x)
        (r.origin.y + t * r.direction.y) (r.origin.z + t * r.direction.z)) ∧
    (∀ (o : Vec3) (dx dy dz : ℝ) (mn mx : Float),
      (Ray3.mk o (Vec3.new (Float.ofReal dx) (Float.ofReal dy)
        (Float.ofReal dz)) mn mx).eval 0 = o) := by
  constructor
  · intro r t
    rfl
  · intro o dx dy dz mn mx
    obtain ⟨a, b, c⟩ := o
    simp only [Ray3.eval, Vec3.add, smul, Vec3.new]
    rw [zero_fmul_ofReal, zero_fmul_ofReal, zero_fmul_ofReal, fadd_zero,
      fadd_zero, fadd_zero]

/-- C4: `Ray3::new(o, d)` keeps the given origin and direction, sets `min_t`
to the strictly positive epsilon `FLOAT_ERR`, and sets `max_t` to positive
infinity. -/
theorem ray3_new_fields :
    ∀ (o d : Vec3),
      (Ray3.new o d).origin = o ∧ (Ray3.new o d).direction = d ∧
      (Ray3.new o d).min_t = FLOAT_ERR ∧ (0 : Float) < FLOAT_ERR ∧
      (Ray3.new o d).max_t = ⊤ :=
  fun _ _ => ⟨rfl, rfl, rfl, FLOAT_ERR_pos, rfl⟩

/-- C5: a miss is a structural value, not an error: both
`IntersectionInfo::default()` and `IntersectionInfo::no_intersection()`
give `did_hit = false`, point `(0,0,0)` and `t = +infinity`. -/
theorem intersection_info_miss_sentinel :
    IntersectionInfo.default.did_hit = false ∧
    IntersectionInfo.default.point = Vec3.new 0 0 0 ∧
    IntersectionInfo.default.t = ⊤ ∧
    IntersectionInfo.no_intersection = IntersectionInfo.default :=
  ⟨rfl, rfl, rfl, rfl⟩

/-- C6 counterexample: two matrices with identical first three columns that
differ only in the translation column — one translation entry infinite —
transform the zero vector differently: the infinite entry times the `w = 0`
homogeneous coordinate is NaN, not `0`. -/
theorem transform_vector_depends_on_translation :
    (Matrix4.mk (Vec4.mk 0 0 0 0) (Vec4.mk 0 0 0 0) (Vec4.mk 0 0 0 0)
        (Vec4.mk ⊤ 0 0 0)).transform_vector (Vec3.new 0 0 0)
      ≠ (Matrix4.mk (Vec4.mk 0 0 0 0) (Vec4.mk 0 0 0 0) (Vec4.mk 0 0 0 0)
        (Vec4.mk 0 0 0 0)).transform_vector (Vec3.new 0 0 0) := by
  have h1 : (Matrix4.mk (Vec4.mk 0 0 0 0) (Vec4.mk 0 0 0 0)
      (Vec4.mk 0 0 0 0) (Vec4.mk (⊤ : Float) 0 0 0)).transform_vector
        (Vec3.new 0 0 0)
      = Vec3.new Float.nan 0 0 := by
    simp only [Matrix4.transform_vector, Matrix4.mulVec, Vec3.new,
      zero_fmul_zero, top_fmul_zero, fadd_zero, fadd_nan]
  have h2 : (Matrix4.mk (Vec4.mk 0 0 0 0) (Vec4.mk 0 0 0 0)
      (Vec4.mk 0 0 0 0) (Vec4.mk (0 : Float) 0 0 0)).transform_vector
        (Vec3.new 0 0 0)
      = Vec3.new 0 0 0 := by
    simp only [Matrix4.transform_vector, Matrix4.mulVec, Vec3.new,
      zero_fmul_zero, fadd_zero]
  intro hcontra
  rw [h1, h2] at hcontra
  exact Float.noConfusion (congrArg Vec3.x hcontra)

/-- C6 amended: for matrices whose translation column is finite,
`transform_vector` applies only the upper-left 3×3 block: the result is the
linear combination of the first three columns, and two such matrices that
differ only in the (finite) translation column transform every vector
identically. -/
theorem transform_vector_ignores_finite_translation :
    ∀ (cx cy cz : Vec4) (w1 w2 w3 w4 u1 u2 u3 u4 : ℝ) (v : Vec3),
      ((Matrix4.mk cx cy cz (Vec4.mk (Float.ofReal w1) (Float.ofReal w2)
          (Float.ofReal w3) (Float.ofReal w4))).transform_vector v
        = Vec3.new (cx.x * v.x + cy.x * v.y + cz.x * v.z)
            (cx.y * v.x + cy.y * v.y + cz.y * v.z)
            (cx.z * v.x + cy.z * v.y + cz.z * v.z)) ∧
      (Matrix4.mk cx cy cz (Vec4.mk (Float.ofReal w1) (Float.ofReal w2)
          (Float.ofReal w3) (Float.ofReal w4))).transform_vector v
        = (Matrix4.mk cx cy cz (Vec4.mk (Float.ofReal u1) (Float.ofReal u2)
          (Float.ofReal u3) (Float.ofReal u4))).transform_vector v := by
  intro cx cy cz w1 w2 w3 w4 u1 u2 u3 u4 v
  constructor
  · simp only [Matrix4.transform_vector, Matrix4.mulVec, Vec3.new,
      ofReal_fmul_zero, fadd_zero]
  · simp only [Matrix4.transform_vector, Matrix4.mulVec, Vec3.new,
      ofReal_fmul_zero, fadd_zero]

/-- C7 counterexample: at the vector `(∞, 0, 0)` (infinity is a legal
component value — the claim allows any components), `are_equal(a, a)` is
false: the x-difference `∞ - ∞` is NaN, which is not within epsilon of
zero. -/
theorem are_equal_self_fails_at_infinity :
    ¬ Vec3.are_equal (Vec3.new ⊤ 0 0) (Vec3.new ⊤ 0 0) := by
  rintro ⟨h, -, -⟩
  simp only [Vec3.new] at h
  rw [top_fsub_top] at h
  exact not_is_zero_nan h

/-- C7 amended: for every vector with finite components, `are_equal(a, a)`
is true. -/
theorem are_equal_self_of_finite :
    ∀ x y z : ℝ,
      Vec3.are_equal
        (Vec3.new (Float.ofReal x) (Float.ofReal y) (Float.ofReal z))
        (Vec3.new (Float.ofReal x) (Float.ofReal y) (Float.ofReal z)) := by
  intro x y z
  have h : ∀ a : ℝ, is_zero (Float.ofReal a - Float.ofReal a) := by
    intro a
    rw [ofReal_sub, sub_self, ofReal_zero]
    exact is_zero_zero
  exact ⟨h x, h y, h z⟩

/-- C8 counterexample: the vector `(∞, 0, 0)` has non-zero magnitude
(its magnitude is `∞`), yet the magnitude of its normalization is NaN
(normalize scales by `1/∞ = 0`, and `∞ * 0` is NaN), which is not within
epsilon of `1`. -/
theorem normalize_magnitude_fails_at_infinity :
    (Vec3.new ⊤ 0 0).magnitude ≠ 0 ∧
    ¬ is_zero ((Vec3.new ⊤ 0 0).normalize.magnitude - 1) := by
  have h2 : (Vec3.new (⊤ : Float) 0 0).magnitude2 = ⊤ := by
    simp only [Vec3.magnitude2, dot, Vec3.new, top_fmul_top, zero_fmul_zero,
      fadd_zero]
  have hm : (Vec3.new (⊤ : Float) 0 0).magnitude = ⊤ := by
    rw [Vec3.magnitude, h2, fsqrt_top]
  have hnorm : (Vec3.new (⊤ : Float) 0 0).normalize
      = Vec3.new Float.nan 0 0 := by
    rw [Vec3.normalize, Vec3.normalize_to, hm, fdiv, finv_top,
      show (1 : Float) * 0 = 0 from by
        rw [← ofReal_one, ← ofReal_zero, ofReal_mul, mul_zero]]
    simp only [Vec3.mul_scalar, Vec3.new, top_fmul_zero, zero_fmul_zero]
  have hmagn : (Vec3.new Float.nan (0 : Float) 0).magnitude = Float.nan := by
    rw [Vec3.magnitude, show (Vec3.new Float.nan (0 : Float) 0).magnitude2
        = Float.nan from by
      simp only [Vec3.magnitude2, dot, Vec3.new, nan_fmul, nan_fadd]]
    rfl
  refine ⟨?_, ?_⟩
  · rw [hm]
    exact top_ne_zero_float
  · rw [hnorm, hmagn, nan_fsub]
    exact not_is_zero_nan

/-- C8 amended: for every vector with finite components whose magnitude is
non-zero, the normalized vector has magnitude `1` within the epsilon
tolerance (in exact arithmetic, exactly `1`). -/
theorem normalize_magnitude_one_of_finite :
    ∀ x y z : ℝ,
      (Vec3.new (Float.ofReal x) (Float.ofReal y)
        (Float.ofReal z)).magnitude ≠ 0 →
      is_zero ((Vec3.new (Float.ofReal x) (Float.ofReal y)
        (Float.ofReal z)).normalize.magnitude - 1) := by
  intro x y z hmag
  have hsqrt_ne : Real.sqrt (x * x + y * y + z * z) ≠ 0 := by
    intro h0
    exact hmag (by rw [magnitude_ofReal, h0, ofReal_zero])
  have hspos : 0 < x * x + y * y + z * z := Real.sqrt_ne_zero'.mp hsqrt_ne
  set m := Real.sqrt (x * x + y * y + z * z) with hm_def
  have hmpos : 0 < m := Real.sqrt_pos.mpr hspos
  have hnorm : (Vec3.new (Float.ofReal x) (Float.ofReal y)
      (Float.ofReal z)).normalize
      = Vec3.new (Float.ofReal (x * m⁻¹)) (Float.ofReal (y * m⁻¹))
        (Float.ofReal (z * m⁻¹)) := by
    rw [Vec3.normalize, Vec3.normalize_to, magnitude_ofReal, ← hm_def, fdiv,
      finv_ofReal m hmpos.ne', ← ofReal_one, ofReal_mul, one_mul]
    simp only [Vec3.mul_scalar, Vec3.new]
    rw [ofReal_mul, ofReal_mul, ofReal_mul]
  have hkey : (x * m⁻¹) * (x * m⁻¹) + (y * m⁻¹) * (y * m⁻¹)
      + (z * m⁻¹) * (z * m⁻¹) = 1 := by
    have hmm : m * m = x * x + y * y + z * z := Real.mul_self_sqrt hspos.le
    have hexp : (x * m⁻¹) * (x * m⁻¹) + (y * m⁻¹) * (y * m⁻¹)
        + (z * m⁻¹) * (z * m⁻¹)
        = (x * x + y * y + z * z) * (m * m)⁻¹ := by ring
    rw [hexp, hmm, mul_inv_cancel₀ hspos.ne']
  rw [hnorm, magnitude_ofReal, hkey, Real.sqrt_one, ← ofReal_one,
    ofReal_sub, sub_self, ofReal_zero]
  exact is_zero_zero

/-- C8 amended witness: the vector `(1, 0, 0)` has non-zero magnitude, and
its normalization has magnitude `1` within epsilon. -/
theorem normalize_magnitude_one_witness :
    (Vec3.new (Float.ofReal 1) (Float.ofReal 0)
      (Float.ofReal 0)).magnitude ≠ 0 ∧
    is_zero ((Vec3.new (Float.ofReal 1) (Float.ofReal 0)
      (Float.ofReal 0)).normalize.magnitude - 1) := by
  have hmag : (Vec3.new (Float.ofReal 1) (Float.ofReal 0)
      (Float.ofReal 0)).magnitude ≠ 0 := by
    rw [magnitude_ofReal,
      show (1 * 1 + 0 * 0 + 0 * 0 : ℝ) = 1 from by norm_num, Real.sqrt_one]
    intro h
    exact one_ne_zero (EReal.coe_eq_zero.mp (Float.val.inj h))
  exact ⟨hmag, normalize_magnitude_one_of_finite 1 0 0 hmag⟩

/-- C9: the derived `Default` for `Ray3` zero-fills both bounds, so
`min_t = 0`, `max_t = 0`, and the valid range is empty: `is_in_range`
rejects every parameter (NaN included). -/
theorem ray3_default_empty_range :
    Ray3.default.min_t = 0 ∧ Ray3.default.max_t = 0 ∧
    ∀ t : Float, ¬ Ray3.default.is_in_range t := by
  refine ⟨rfl, rfl, fun t h => ?_⟩
  cases t with
  | nan => exact h.1
  | val a =>
      have h1 : (0 : EReal) < a := h.1
      have h2 : a < (0 : EReal) := h.2
      exact absurd (lt_trans h1 h2) (lt_irrefl 0)

/-- C10: each coordinate setter changes only its own component and leaves
the other two unchanged. -/
theorem setters_change_only_their_component :
    ∀ (v : Vec3) (c : Float),
      (v.set_x c).x = c ∧ (v.set_x c).y = v.y ∧ (v.set_x c).z = v.z ∧
      (v.set_y c).y = c ∧ (v.set_y c).x = v.x ∧ (v.set_y c).z = v.z ∧
      (v.set_z c).z = c ∧ (v.set_z c).x = v.x ∧ (v.set_z c).y = v.y :=
  fun _ _ => ⟨rfl, rfl, rfl, rfl, rfl, rfl, rfl, rfl, rfl⟩

end

end Mirth
